import Mathlib

/-!
Shallow embedding of `src/wbparser.py` (class `WildBerriesParser` of the
wildberries-parser-in-python repository), together with theorems settling
the specification claims about it.

Network calls are abstracted as explicit functions (page number to parsed
response, article id to sales-lookup outcome); Python exceptions are
modelled with `Option`/`Except`; Python dicts with possibly-missing keys
are modelled with `Option` fields.
-/

/-- A node of the raw JSON catalogue tree, as consumed by `traverse_json`.
Each Python dict may or may not carry the keys `name`, `url`, `shard`,
`query` and `childs`; a missing key is `none`. -/
inductive CatNode where
  | mk (name url shard query : Option String) (childs : Option (List CatNode))

/-- The flat record `traverse_json` appends for a well-formed node:
`{'name': ..., 'url': ..., 'shard': ..., 'query': ...}`. -/
structure CategoryDescriptor where
  name : String
  url : String
  shard : String
  query : String
deriving DecidableEq, Repr

/-- `WildBerriesParser.traverse_json` (src/wbparser.py lines 124-154).
For each node: build the four-field record (a missing key raises
`KeyError`, caught by `except KeyError: continue`, so a node with any
missing field contributes nothing and the loop moves on to the next
sibling without reaching the `if 'childs' in category:` recursion);
a complete node's record is appended and then, if the node has a
`childs` key, the traversal recurses into the children before moving to
the next sibling. -/
def traverse_json : List CatNode → List CategoryDescriptor
  | [] => []
  | .mk (some n) (some u) (some s) (some q) (some ch) :: rest =>
      ⟨n, u, s, q⟩ :: (traverse_json ch ++ traverse_json rest)
  | .mk (some n) (some u) (some s) (some q) none :: rest =>
      ⟨n, u, s, q⟩ :: traverse_json rest
  | .mk _ _ _ _ _ :: rest => traverse_json rest

/-- Worker for `pySplit`, structurally recursive on a fuel argument so that
it evaluates by kernel reduction; `pySplit` supplies fuel `s.length`, which
the fuel-irrelevance lemma below shows is always enough. -/
def pySplitGo (sep : List Char) : Nat → List Char → List (List Char)
  | _, [] => [[]]
  | 0, s => [s]
  | fuel + 1, c :: rest =>
    if sep ≠ [] ∧ sep.isPrefixOf (c :: rest) then
      [] :: pySplitGo sep fuel (List.drop sep.length (c :: rest))
    else
      match pySplitGo sep fuel rest with
      | [] => [[c]]
      | h :: t => (c :: h) :: t

/-- Python `str.split(sep)` for a non-empty separator, on character lists:
non-overlapping occurrences of `sep` are located left to right and cut out;
the pieces between them are returned (an empty separator is never used by
the source). -/
def pySplit (sep : List Char) (s : List Char) : List (List Char) :=
  pySplitGo sep s.length s

/-- Python `sep in s` on character lists: `sep` occurs as a contiguous
subsequence of `s`. -/
def containsSeq (sep : List Char) : List Char → Bool
  | [] => sep.isEmpty
  | c :: rest => sep.isPrefixOf (c :: rest) || containsSeq sep rest

/-- Python `user_input.split(sep)[-1]`: the last piece of the split, i.e.
everything after the final occurrence of `sep` (the whole string when `sep`
does not occur). -/
def pySplitLast (sep s : String) : String :=
  ⟨(pySplit sep.data s.data).getLastD []⟩

/-- The marketplace domain literal used in
`user_input.split("https://www.wildberries.ru")` (src/wbparser.py line 195). -/
def wbDomain : String := "https://www.wildberries.ru"

/-- `WildBerriesParser.extract_category_data` (src/wbparser.py lines
176-197): scan the flattened catalogue in order and return
`(name, shard, query)` of the first entry whose `url` equals
`user_input.split("https://www.wildberries.ru")[-1]` or whose `name`
equals `user_input`; falling off the loop returns Python `None`. -/
def extract_category_data (catalogue : List CategoryDescriptor)
    (user_input : String) : Option (String × String × String) :=
  match catalogue with
  | [] => none
  | c :: rest =>
    if pySplitLast wbDomain user_input = c.url ∨ user_input = c.name then
      some (c.name, c.shard, c.query)
    else
      extract_category_data rest user_input

/-- One raw item of a listing-page response, with the eight fields
`get_products_on_page` reads unconditionally. -/
structure RawItem where
  id : Int
  name : String
  brand : String
  brandId : Int
  priceU : Int
  salePriceU : Int
  rating : Int
  feedbacks : Int
deriving DecidableEq, Repr

/-- The `'data'` member of a page response; its `'products'` key may be
absent. -/
structure DataField where
  products : Option (List RawItem)
deriving DecidableEq, Repr

/-- A parsed listing-page response `{data: {products: [...]}}`; the `'data'`
key may be absent. -/
structure PageData where
  data : Option DataField
deriving DecidableEq, Repr

/-- Python exceptions that the modelled code can raise. -/
inductive PyError where
  | keyError
  | typeError
  | requestException
deriving DecidableEq, Repr

/-- A value of the `'Продано'` column: either the integer `qnt` or one of
the marker strings `'неизвестно'` / `'нет данных'`. -/
inductive CellVal where
  | int (n : Int)
  | str (s : String)
deriving DecidableEq, Repr

/-- One product card dict as built by `get_products_on_page`; field names
translate the Russian keys: `link` = `'Ссылка'`, `article` = `'Артикул'`,
`name` = `'Наименование'`, `brand` = `'Бренд'`, `brandId` = `'ID бренда'`,
`price` = `'Цена'`, `salePrice` = `'Цена со скидкой'`, `rating` =
`'Рейтинг'`, `feedbacks` = `'Отзывы'`, `sold` = `'Продано'` (absent,
`none`, until `get_sales_data` adds it). -/
structure ProductCard where
  link : String
  article : Int
  name : String
  brand : String
  brandId : Int
  price : Int
  salePrice : Int
  rating : Int
  feedbacks : Int
  sold : Option CellVal := none
deriving DecidableEq, Repr

/-- Round to nearest integer, ties to even, of the rational `p / q`
(for `q > 0`): the rounding CPython applies to the scaled significand when
dividing two ints into a binary64 float. -/
def rneDiv (p q : Nat) : Nat :=
  let n := p / q
  let r := p % q
  if 2 * r < q then n
  else if q < 2 * r then n + 1
  else if n % 2 = 0 then n else n + 1

/-- For `x ≥ 1`, the binade exponent `E = ⌊log₂ (x / 100)⌋` of the true
quotient: with `L = ⌊log₂ x⌋` one has `2^L ≤ x < 2^(L+1)` and
`2^6 < 100 < 2^7`, so `E` is `L - 7` or `L - 6`, and it is `L - 6` exactly
when `x / 100 ≥ 2^(L-6)`, i.e. `100·2^L ≤ x·2^6`. -/
def binadeExpDiv100 (x : Nat) : Int :=
  if 100 * 2 ^ Nat.log2 x ≤ x * 2 ^ 6 then (Nat.log2 x : Int) - 6
  else (Nat.log2 x : Int) - 7

/-- CPython `int(x / 100)` for a nonnegative int `x`: `/` produces the
binary64 float nearest to the true quotient — 53 significant bits, ties to
even, i.e. the nearest multiple of `2^e` for `e = E - 52` — and `int()`
then truncates it.  Faithful on the finite float range; quotients at or
beyond `2^1024` (`x` around `10^310`), where CPython raises
`OverflowError`, are outside the model and outside every use below. -/
def truncFloatDiv100 (x : Nat) : Nat :=
  if x = 0 then 0
  else
    let e : Int := binadeExpDiv100 x - 52
    if 0 ≤ e then rneDiv x (100 * 2 ^ e.toNat) * 2 ^ e.toNat
    else rneDiv (x * 2 ^ (-e).toNat) 100 / 2 ^ (-e).toNat

/-- Python `int(x / 100)` on an integer `x` (src/wbparser.py lines
229-230): CPython's `/` on ints is correctly-rounded binary64 true
division, which is symmetric in sign, and `int()` drops the fractional
part, truncating toward zero. -/
def intDiv100 (x : Int) : Int := x.sign * truncFloatDiv100 x.natAbs

/-- The card dict built for one raw item (src/wbparser.py lines 222-233). -/
def mkCard (item : RawItem) : ProductCard :=
  { link := "https://www.wildberries.ru/catalog/" ++ toString item.id
      ++ "/detail.aspx"
    article := item.id
    name := item.name
    brand := item.brand
    brandId := item.brandId
    price := intDiv100 item.priceU
    salePrice := intDiv100 item.salePriceU
    rating := item.rating
    feedbacks := item.feedbacks }

/-- `WildBerriesParser.get_products_on_page` (src/wbparser.py lines
199-234): iterate over `page_data['data']['products']` building a card per
item; an absent `'data'` or `'products'` key raises an uncaught `KeyError`
at the subscript. -/
def get_products_on_page (page_data : PageData) :
    Except PyError (List ProductCard) :=
  match page_data.data with
  | none => .error .keyError
  | some d =>
    match d.products with
    | none => .error .keyError
    | some items => .ok (items.map mkCard)

/-- `WildBerriesParser.add_data_from_page` (src/wbparser.py lines 236-263),
with the GET already performed: extend the accumulated card list when the
page has products and return Python `None` (here `false`); return `True`
on an empty page.  An exception from `get_products_on_page` propagates. -/
def add_data_from_page (response : PageData) (cards : List ProductCard) :
    Except PyError (List ProductCard × Bool) :=
  match get_products_on_page response with
  | .error e => .error e
  | .ok page_data =>
    if page_data.length > 0 then .ok (cards ++ page_data, false)
    else .ok (cards, true)

/-- The shared page loop of `get_all_products_in_category` (src/wbparser.py
lines 287-293) and `get_all_products_in_search_result` (lines 364-371):
`for page in range(1, 101): ... if self.add_data_from_page(url): break`.
`fetch page` is the parsed JSON response for that page's URL.  Besides the
final card list the model returns the trace of page numbers actually
requested, which the claims quantify over; `p` is the next page number and
`n` the remaining length of the range. -/
def crawl_loop (fetch : Nat → PageData) :
    Nat → Nat → List ProductCard → Except PyError (List Nat × List ProductCard)
  | _, 0, cards => .ok ([], cards)
  | p, n + 1, cards =>
    match add_data_from_page (fetch p) cards with
    | .error e => .error e
    | .ok (cards2, stop) =>
      if stop then .ok ([p], cards2)
      else
        match crawl_loop fetch (p + 1) n cards2 with
        | .error e => .error e
        | .ok (ps, final) => .ok (p :: ps, final)

/-- `WildBerriesParser.get_all_products_in_category` (src/wbparser.py lines
265-293).  `fetch cd page` abstracts the GET of the category-mode URL built
from `category_data[1]` (shard) and `category_data[2]` (query).  Python
passes `category_data` unchecked; when it is `None`, `category_data[1]` in
the f-string raises `TypeError` before any page is fetched. -/
def get_all_products_in_category
    (fetch : String × String × String → Nat → PageData)
    (category_data : Option (String × String × String))
    (cards : List ProductCard) :
    Except PyError (List Nat × List ProductCard) :=
  match category_data with
  | none => .error .typeError
  | some cd => crawl_loop (fetch cd) 1 100 cards

/-- `WildBerriesParser.get_all_products_in_search_result` (src/wbparser.py
lines 346-371): the identical page loop, with the URL built from the
keyword instead. -/
def get_all_products_in_search_result
    (fetch : String → Nat → PageData) (key_word : String)
    (cards : List ProductCard) :
    Except PyError (List Nat × List ProductCard) :=
  crawl_loop (fetch key_word) 1 100 cards

/-- One entry of a sales-lookup response, carrying the `'qnt'` field read
by `response[0]['qnt']`. -/
structure SalesEntry where
  qnt : Int
deriving DecidableEq, Repr

/-- Outcome of one `requests.get(...).json()` sales lookup:
a parsed response list, a raised `requests.ConnectTimeout`, or any other
raised exception (connection error, JSON decode error, missing `'qnt'`
key, ...). -/
inductive LookupResult where
  | ok (response : List SalesEntry)
  | connectTimeout
  | otherFailure
deriving DecidableEq, Repr

/-- The body of the `get_sales_data` loop for one card (src/wbparser.py
lines 312-319): inside `try`, an empty response list sets
`card['Продано'] = 'неизвестно'` and a non-empty one sets it to
`response[0]['qnt']`; `except requests.ConnectTimeout` sets
`card['Продано'] = 'нет данных'`; every other exception is not caught. -/
def apply_sales_data (r : LookupResult) (card : ProductCard) :
    Except PyError ProductCard :=
  match r with
  | .ok [] => .ok { card with sold := some (.str "неизвестно") }
  | .ok (e :: _) => .ok { card with sold := some (.int e.qnt) }
  | .connectTimeout => .ok { card with sold := some (.str "нет данных") }
  | .otherFailure => .error .requestException

/-- `WildBerriesParser.get_sales_data` (src/wbparser.py lines 295-321):
for each accumulated card in order, look up its article id and attach the
`'Продано'` value; an uncaught exception propagates out of the loop. -/
def get_sales_data (lookup : Int → LookupResult) :
    List ProductCard → Except PyError (List ProductCard)
  | [] => .ok []
  | card :: rest =>
    match apply_sales_data (lookup card.article) card with
    | .error e => .error e
    | .ok card2 =>
      match get_sales_data lookup rest with
      | .error e => .error e
      | .ok rest2 => .ok (card2 :: rest2)

/-- Mode `'1'` of `WildBerriesParser.run_parser` (src/wbparser.py lines
393-406), from the processed catalogue and the category prompt answer on:
resolve the category, print either `"Категория не найдена"` or
`"Найдена категория: ..."`, and then — unconditionally, the crawl is NOT
under the `else:` branch — run `get_all_products_in_category`,
`get_sales_data` and `save_to_excel`.  Returns the printed status message
and the card list handed to `save_to_excel` (or the uncaught exception). -/
def run_parser_mode1 (catalogue : List CategoryDescriptor)
    (input_category : String)
    (fetch : String × String × String → Nat → PageData)
    (lookup : Int → LookupResult) :
    String × Except PyError (List ProductCard) :=
  let category_data := extract_category_data catalogue input_category
  let msg :=
    match category_data with
    | none => "Категория не найдена"
    | some cd => "Найдена категория: " ++ cd.1
  let result :=
    match get_all_products_in_category fetch category_data [] with
    | .error e => .error e
    | .ok (_, cards) => get_sales_data lookup cards
  (msg, result)

/-! Spec-side comparison definitions and concrete sample data. -/

/-- Every node of the tree carries all four required fields. -/
def allComplete : List CatNode → Bool
  | [] => true
  | .mk n u s q ch :: rest =>
    n.isSome && u.isSome && s.isSome && q.isSome &&
      (match ch with
       | none => true
       | some c => allComplete c) &&
      allComplete rest

/-- Spec-side flattening, following the spec's words: an ordered sequence of
descriptors in depth-first pre-order — a node's own descriptor precedes its
children's descriptors, which precede the following siblings' (missing
fields are defaulted, which never happens on the complete trees it is
compared on). -/
def preorderFlatten : List CatNode → List CategoryDescriptor
  | [] => []
  | .mk n u s q ch :: rest =>
    ⟨n.getD "", u.getD "", s.getD "", q.getD ""⟩ ::
      ((match ch with
        | none => []
        | some c => preorderFlatten c) ++ preorderFlatten rest)

/-- Spec-side price rule, following the spec's words: the minor-currency
integer divided by 100 with the fractional part truncated (magnitude
divided, sign kept). -/
def truncatedBy100 (n : Int) : Int := n.sign * ((n.natAbs / 100 : Nat) : Int)

/-- The `'Продано'` value `get_sales_data` attaches for a given lookup
outcome; `none` when the outcome raises an uncaught exception instead. -/
def sold_value (r : LookupResult) : Option CellVal :=
  match r with
  | .ok [] => some (.str "неизвестно")
  | .ok (e :: _) => some (.int e.qnt)
  | .connectTimeout => some (.str "нет данных")
  | .otherFailure => none

/-- The Boolean match test `extract_category_data` applies to one catalogue
entry. -/
def resolverHit (user_input : String) (c : CategoryDescriptor) : Bool :=
  pySplitLast wbDomain user_input == c.url || user_input == c.name

/-- A well-formed catalogue node with no children, used as concrete test
data. -/
def goodChild : CatNode :=
  .mk (some "B") (some "/b") (some "shb") (some "qb") none

/-- A catalogue node that carries a `childs` relation with the well-formed
child `goodChild` but lacks the required field `query`, used as concrete
test data. -/
def badParent : CatNode :=
  .mk (some "A") (some "/a") (some "sha") none (some [goodChild])

/-- The complete tree `A(children=[B, C])` of the spec's flattening-order
test, used as concrete test data. -/
def treeABC : List CatNode :=
  [.mk (some "A") (some "/a") (some "sa") (some "qa")
    (some [.mk (some "B") (some "/b") (some "sb") (some "qb") none,
           .mk (some "C") (some "/c") (some "sc") (some "qc") none])]

/-- A one-entry flattened catalogue used as concrete test data. -/
def sampleCatalogue : List CategoryDescriptor :=
  [⟨"Books", "/books", "books1", "cat=1"⟩]

/-- A concrete product card used as concrete test data. -/
def sampleCard : ProductCard :=
  { link := "https://www.wildberries.ru/catalog/7/detail.aspx"
    article := 7
    name := "book"
    brand := "b"
    brandId := 1
    price := 12
    salePrice := 10
    rating := 5
    feedbacks := 3 }

/-- A concrete raw item with realistic minor-currency prices, used as
concrete test data. -/
def sampleItem : RawItem :=
  { id := 7
    name := "book"
    brand := "b"
    brandId := 1
    priceU := 123450
    salePriceU := 9999
    rating := 5
    feedbacks := 3 }

/-- A raw item whose `priceU` is `10^18 + 199`, a value at which CPython's
binary64 division of the quotient `10^16 + 1.99` rounds up to
`10^16 + 2` (floats are spaced 2 apart in that binade) instead of
truncating to `10^16 + 1`; used as concrete test data. -/
def bigPriceItem : RawItem :=
  { id := 7
    name := "book"
    brand := "b"
    brandId := 1
    priceU := 1000000000000000199
    salePriceU := 100
    rating := 5
    feedbacks := 3 }

/-! Theorems.  Claims C1 and C9: the catalogue flattener. -/

/-- Claim C1, counterexample.  The claim asserts that the traversal still
recurses into a malformed node's children, so that well-formed descendants
appear in the output.  In the code the `except KeyError: continue` jumps
past the `if 'childs' in category:` recursion, so the subtree is dropped:
`badParent` lacks `query` and carries the well-formed child `goodChild`,
yet flattening `[badParent]` yields nothing at all, although `goodChild`
flattens to a descriptor on its own. -/
theorem C1_counterexample_subtree_dropped :
    traverse_json [badParent] = [] ∧
      traverse_json [goodChild] = [⟨"B", "/b", "shb", "qb"⟩] := by
  constructor <;> simp [traverse_json, badParent, goodChild]

/-- Claim C1, amended: a node missing any of the four required fields
contributes no descriptor (and no partial record), and the traversal does
NOT recurse into its children: the node's whole subtree is skipped and
flattening continues with the following siblings. -/
theorem C1_malformed_node_skips_whole_subtree
    (n u s q : Option String) (ch : Option (List CatNode))
    (rest : List CatNode)
    (h : n = none ∨ u = none ∨ s = none ∨ q = none) :
    traverse_json (.mk n u s q ch :: rest) = traverse_json rest := by
  cases n <;> cases u <;> cases s <;> cases q <;> cases ch <;>
    simp_all [traverse_json]

/-- Witness for the amended claim C1 at a concrete malformed node. -/
theorem C1_malformed_node_skips_whole_subtree_witness :
    ((some "A" : Option String) = none ∨ (some "/a" : Option String) = none ∨
      (some "sha" : Option String) = none ∨ (none : Option String) = none) ∧
      traverse_json [badParent] = traverse_json [] := by
  refine ⟨by simp, ?_⟩
  show traverse_json
    [CatNode.mk (some "A") (some "/a") (some "sha") none (some [goodChild])] =
    traverse_json []
  exact C1_malformed_node_skips_whole_subtree _ _ _ _ _ _ (by simp)

/-- Claim C9: on a catalogue tree all of whose nodes carry the four
required fields, `traverse_json` flattens in depth-first pre-order — it
agrees with the spec-side `preorderFlatten`, in which every node's own
descriptor precedes its children's descriptors, which precede the
following siblings'. -/
theorem C9_complete_tree_flattens_preorder (l : List CatNode)
    (h : allComplete l = true) : traverse_json l = preorderFlatten l := by
  induction l using traverse_json.induct with
  | case1 => simp [traverse_json, preorderFlatten]
  | case2 n u s q ch rest ih_ch ih_rest =>
    simp only [allComplete, Bool.and_eq_true] at h
    simp only [traverse_json, preorderFlatten, Option.getD_some,
      ih_ch h.1.2, ih_rest h.2]
  | case3 n u s q rest ih_rest =>
    simp only [allComplete, Bool.and_eq_true] at h
    simp only [traverse_json, preorderFlatten, Option.getD_some,
      List.nil_append, ih_rest h.2]
  | case4 n u s q ch rest h1 h2 ih_rest =>
    cases ch with
    | none =>
      simp only [allComplete, Bool.and_eq_true, Option.isSome_iff_exists] at h
      obtain ⟨⟨⟨⟨⟨vn, hn⟩, ⟨vu, hu⟩⟩, ⟨vs, hs⟩⟩, ⟨vq, hq⟩⟩, _⟩ := h.1
      exact absurd (h2 vn vu vs vq hn hu hs hq rfl) id
    | some c =>
      simp only [allComplete, Bool.and_eq_true, Option.isSome_iff_exists] at h
      obtain ⟨⟨⟨⟨⟨vn, hn⟩, ⟨vu, hu⟩⟩, ⟨vs, hs⟩⟩, ⟨vq, hq⟩⟩, _⟩ := h.1
      exact absurd (h1 vn vu vs vq c hn hu hs hq rfl) id

/-- Witness for claim C9: the spec's example tree `A(children=[B, C])`
flattens to `[A, B, C]`. -/
theorem C9_complete_tree_flattens_preorder_witness :
    allComplete treeABC = true ∧
      traverse_json treeABC =
        [⟨"A", "/a", "sa", "qa"⟩, ⟨"B", "/b", "sb", "qb"⟩,
         ⟨"C", "/c", "sc", "qc"⟩] := by
  refine ⟨by simp [allComplete, treeABC], ?_⟩
  rw [C9_complete_tree_flattens_preorder treeABC (by simp [allComplete, treeABC])]
  simp [preorderFlatten, treeABC]

/-! Claim C6: the price conversion. -/

/-- The rounded scaled significand is within half a unit of the true
quotient: `|rneDiv p 100 · 100 - p| ≤ 50`, stated without subtraction. -/
theorem rneDiv100_err (p : Nat) :
    2 * p ≤ 2 * rneDiv p 100 * 100 + 100 ∧
      2 * rneDiv p 100 * 100 ≤ 2 * p + 100 := by
  simp only [rneDiv]
  split_ifs <;> omega

/-- The binade exponent of `x / 100` is at most `⌊log₂ x⌋ - 6`. -/
theorem binadeExpDiv100_le (x : Nat) :
    binadeExpDiv100 x ≤ (Nat.log2 x : Int) - 6 := by
  simp only [binadeExpDiv100]
  split_ifs <;> omega

/-- In the float-exact range `x < 2^53` the quotient's binade keeps at
least six fractional bits below the rounding  step, so rounding cannot
carry the truncated value across an integer: CPython's `int(x / 100)`
equals exact truncating division. -/
theorem truncFloatDiv100_in_exact_range (x : Nat) (hx : x < 2 ^ 53) :
    truncFloatDiv100 x = x / 100 := by
  rcases Nat.eq_zero_or_pos x with rfl | hpos
  · rfl
  · have hxne : x ≠ 0 := by omega
    have hL : Nat.log2 x ≤ 52 := by
      have h := (Nat.log2_lt hxne).mpr hx
      omega
    have hEle := binadeExpDiv100_le x
    have hneg : ¬(0 ≤ binadeExpDiv100 x - 52) := by omega
    simp only [truncFloatDiv100, if_neg hxne, if_neg hneg]
    set s := (-(binadeExpDiv100 x - 52)).toNat with hsdef
    have hs6 : 6 ≤ s := by omega
    have hP64 : 64 ≤ 2 ^ s := by
      calc (64 : Nat) = 2 ^ 6 := by norm_num
        _ ≤ 2 ^ s := Nat.pow_le_pow_right (by omega) hs6
    set P := 2 ^ s with hPdef
    set m := rneDiv (x * P) 100 with hmdef
    obtain ⟨e1, e2⟩ := rneDiv100_err (x * P)
    rw [← hmdef] at e1 e2
    set k := x / 100 with hkdef
    set r := x % 100 with hrdef
    have hxkr : x = 100 * k + r := by omega
    have hr99 : r ≤ 99 := by omega
    have hKR : x * P = 100 * (k * P) + r * P := by rw [hxkr]; ring
    have hRle : r * P ≤ 99 * P := Nat.mul_le_mul_right P hr99
    rw [hKR] at e1 e2
    set K := k * P with hKdef
    set R := r * P with hRdef
    have lo : K ≤ m := by omega
    have hi : m < K + P := by omega
    have hdiv : m / P = k :=
      Nat.div_eq_of_lt_le (hKdef ▸ lo)
        (by rw [Nat.succ_mul, ← hKdef]; exact hi)
    exact hdiv

/-- Below `2^53` in magnitude, `int(x / 100)` agrees with the spec-side
truncating division for integers of either sign. -/
theorem intDiv100_in_exact_range (n : Int) (h : n.natAbs < 2 ^ 53) :
    intDiv100 n = truncatedBy100 n := by
  simp only [intDiv100, truncatedBy100, truncFloatDiv100_in_exact_range n.natAbs h]

/-- Claim C6, counterexample.  The claim asserts truncating integer
division for ALL integer inputs, but CPython's `/` rounds the true
quotient to binary64 before `int()` truncates: at
`priceU = 10^18 + 199` the quotient `10^16 + 1.99` lies in a binade whose
floats are spaced 2 apart, rounding to nearest gives `10^16 + 2`, and the
code's `regular_price` is `10000000000000002`, not the truncated
`10000000000000001`. -/
theorem C6_counterexample_float_rounding_defeats_truncation :
    (mkCard bigPriceItem).price = 10000000000000002 ∧
      truncatedBy100 bigPriceItem.priceU = 10000000000000001 ∧
      (mkCard bigPriceItem).price ≠ truncatedBy100 bigPriceItem.priceU := by
  have hne : (1000000000000000199 : Nat) ≠ 0 := by norm_num
  have hlog : Nat.log2 1000000000000000199 = 59 := by
    have h1 := (Nat.log2_lt hne).mpr
      (show (1000000000000000199 : Nat) < 2 ^ 60 by norm_num)
    have h2 := (Nat.le_log2 hne).mpr
      (show 2 ^ 59 ≤ (1000000000000000199 : Nat) by norm_num)
    omega
  have hbin : binadeExpDiv100 1000000000000000199 = 53 := by
    simp only [binadeExpDiv100, hlog]
    rw [if_pos (by norm_num)]
    norm_num
  have hfl : truncFloatDiv100 1000000000000000199 = 10000000000000002 := by
    simp only [truncFloatDiv100, if_neg hne, hbin]
    rw [if_pos (by norm_num : (0 : Int) ≤ 53 - 52)]
    norm_num [rneDiv]
  have hprice : (mkCard bigPriceItem).price = 10000000000000002 := by
    show intDiv100 (1000000000000000199 : Int) = 10000000000000002
    show (1000000000000000199 : Int).sign *
      truncFloatDiv100 (1000000000000000199 : Int).natAbs = 10000000000000002
    rw [show (1000000000000000199 : Int).natAbs = 1000000000000000199 from rfl,
      hfl]
    decide
  refine ⟨hprice, by decide, ?_⟩
  rw [hprice, show truncatedBy100 bigPriceItem.priceU = 10000000000000001
    from by decide]
  decide

/-- Claim C6, amended: for every raw item whose `priceU` and `salePriceU`
have magnitude below `2^53` — the float-exact range, containing every
realistic minor-currency price — `regular_price` (`'Цена'`) and
`discounted_price` (`'Цена со скидкой'`) equal the minor-currency integers
integer-divided by 100 with the fractional part truncated (spec-side
`truncatedBy100`); `priceU = 123450` yields `1234`, not the rounded
`1235`.  Beyond that range CPython's float rounding can differ, as the
counterexample shows. -/
theorem C6_prices_truncate_in_float_exact_range (item : RawItem)
    (hp : item.priceU.natAbs < 2 ^ 53)
    (hs : item.salePriceU.natAbs < 2 ^ 53) :
    (mkCard item).price = truncatedBy100 item.priceU ∧
      (mkCard item).salePrice = truncatedBy100 item.salePriceU ∧
      truncatedBy100 123450 = 1234 ∧ truncatedBy100 123450 ≠ 1235 :=
  ⟨intDiv100_in_exact_range _ hp, intDiv100_in_exact_range _ hs,
    by decide, by decide⟩

/-- Witness for the amended claim C6 at the concrete item with
`priceU = 123450`. -/
theorem C6_prices_truncate_in_float_exact_range_witness :
    sampleItem.priceU.natAbs < 2 ^ 53 ∧
      sampleItem.salePriceU.natAbs < 2 ^ 53 ∧
      (mkCard sampleItem).price = truncatedBy100 sampleItem.priceU ∧
      (mkCard sampleItem).price = 1234 := by
  refine ⟨by decide, by decide,
    (C6_prices_truncate_in_float_exact_range sampleItem (by decide)
      (by decide)).1, ?_⟩
  rw [(C6_prices_truncate_in_float_exact_range sampleItem (by decide)
    (by decide)).1]
  decide

/-! Claims C2 and C8: the sales enricher. -/

/-- The only exception `apply_sales_data` lets escape is the uncaught
non-timeout one. -/
theorem apply_sales_data_error (r : LookupResult) (c : ProductCard)
    (e : PyError) (h : apply_sales_data r c = .error e) :
    r = .otherFailure ∧ e = .requestException := by
  cases r with
  | ok l => cases l <;> simp [apply_sales_data] at h
  | connectTimeout => simp [apply_sales_data] at h
  | otherFailure => simpa [apply_sales_data, eq_comm] using h

/-- A lookup outcome other than the uncaught failure enriches the card with
its `sold_value`. -/
theorem apply_sales_data_ok (r : LookupResult) (c : ProductCard)
    (h : r ≠ .otherFailure) :
    apply_sales_data r c = .ok { c with sold := sold_value r } := by
  cases r with
  | ok l => cases l <;> rfl
  | connectTimeout => rfl
  | otherFailure => exact absurd rfl h

/-- Claim C2: `get_sales_data` classifies each lookup outcome into exactly
three states — an empty result marks the card `'неизвестно'`, a raised
connect-timeout marks it `'нет данных'`, and a non-empty result stores the
first entry's `qnt`; the three representations are pairwise distinct; the
timeout is the only locally recovered failure, and any other lookup
failure propagates out of `get_sales_data` unhandled. -/
theorem C2_sales_outcome_classification :
    (∀ card : ProductCard,
      apply_sales_data (.ok []) card =
        .ok { card with sold := some (.str "неизвестно") } ∧
      (∀ (e : SalesEntry) (tl : List SalesEntry),
        apply_sales_data (.ok (e :: tl)) card =
          .ok { card with sold := some (.int e.qnt) }) ∧
      apply_sales_data .connectTimeout card =
        .ok { card with sold := some (.str "нет данных") } ∧
      apply_sales_data .otherFailure card = .error .requestException) ∧
    (∀ n : Int,
      CellVal.str "неизвестно" ≠ CellVal.str "нет данных" ∧
      CellVal.int n ≠ CellVal.str "неизвестно" ∧
      CellVal.int n ≠ CellVal.str "нет данных") ∧
    (∀ (lookup : Int → LookupResult) (cards : List ProductCard)
      (card : ProductCard), card ∈ cards →
      lookup card.article = .otherFailure →
      get_sales_data lookup cards = .error .requestException) := by
  refine ⟨fun card => ⟨rfl, fun e tl => rfl, rfl, rfl⟩, fun n => by simp, ?_⟩
  intro lookup cards
  induction cards with
  | nil => intro card hc; simp at hc
  | cons c rest ih =>
    intro card hc hfail
    rcases List.mem_cons.mp hc with hhead | htail
    · subst hhead
      simp only [get_sales_data, hfail]
      rfl
    · simp only [get_sales_data]
      cases happ : apply_sales_data (lookup c.article) c with
      | error e =>
        rw [(apply_sales_data_error _ _ _ happ).2]
      | ok c2 => rw [ih card htail hfail]

/-- Witness for claim C2: with a single card and a lookup that raises a
non-timeout failure, the enrichment run fails as a whole. -/
theorem C2_sales_outcome_classification_witness :
    sampleCard ∈ [sampleCard] ∧
      get_sales_data (fun _ => .otherFailure) [sampleCard] =
        .error .requestException :=
  ⟨by simp,
    C2_sales_outcome_classification.2.2 (fun _ => .otherFailure)
      [sampleCard] sampleCard (by simp) rfl⟩

/-- Claim C8: when no lookup raises an uncaught failure, `get_sales_data`
returns exactly the accumulated card sequence mapped one-to-one in order —
no reordering, no deduplication, no drop, each card enriched exactly once —
and the enrichment changes no field other than `sold`. -/
theorem C8_enrichment_preserves_sequence (lookup : Int → LookupResult)
    (cards : List ProductCard)
    (h : ∀ card ∈ cards, lookup card.article ≠ .otherFailure) :
    get_sales_data lookup cards =
      .ok (cards.map fun c => { c with sold := sold_value (lookup c.article) }) ∧
    (cards.map fun c => { c with sold := sold_value (lookup c.article) }).length
      = cards.length ∧
    ∀ (c : ProductCard) (r : LookupResult),
      ({ c with sold := sold_value r } : ProductCard).link = c.link ∧
      ({ c with sold := sold_value r } : ProductCard).article = c.article ∧
      ({ c with sold := sold_value r } : ProductCard).name = c.name ∧
      ({ c with sold := sold_value r } : ProductCard).brand = c.brand ∧
      ({ c with sold := sold_value r } : ProductCard).brandId = c.brandId ∧
      ({ c with sold := sold_value r } : ProductCard).price = c.price ∧
      ({ c with sold := sold_value r } : ProductCard).salePrice = c.salePrice ∧
      ({ c with sold := sold_value r } : ProductCard).rating = c.rating ∧
      ({ c with sold := sold_value r } : ProductCard).feedbacks = c.feedbacks := by
  refine ⟨?_, List.length_map _ _, fun c r => by simp⟩
  induction cards with
  | nil => rfl
  | cons c rest ih =>
    simp only [get_sales_data,
      apply_sales_data_ok _ _ (h c (List.mem_cons_self c rest)),
      ih fun card hc => h card (List.mem_cons_of_mem c hc)]
    rfl

/-- Witness for claim C8 on a concrete one-card list with an
always-empty lookup. -/
theorem C8_enrichment_preserves_sequence_witness :
    get_sales_data (fun _ => LookupResult.ok []) [sampleCard] =
      .ok [{ sampleCard with sold := some (.str "неизвестно") }] := by
  have h := C8_enrichment_preserves_sequence (fun _ => LookupResult.ok [])
    [sampleCard] (by intro card hc; simp)
  rw [h.1]
  simp [sold_value]

/-! Claim C3: the paginated crawl loop. -/

/-- Behaviour of `crawl_loop` when every page response is well-formed
(`{data: {products: items p}}`): the loop requests the consecutive pages
`p, p+1, ...`, requesting at most `n` of them, never continuing past an
empty page, and stopping before the range is exhausted only on an empty
page; it returns normally in every case. -/
theorem crawl_loop_wf_pages (items : Nat → List RawItem) :
    ∀ (n p : Nat) (cards : List ProductCard),
      ∃ (k : Nat) (extra : List ProductCard),
        crawl_loop (fun q => ⟨some ⟨some (items q)⟩⟩) p n cards =
          .ok (List.range' p k, cards ++ extra) ∧
        k ≤ n ∧ (0 < n → 0 < k) ∧
        (∀ j, p ≤ j → j + 1 < p + k → items j ≠ []) ∧
        (k < n → items (p + k - 1) = []) := by
  intro n
  induction n with
  | zero =>
    intro p cards
    refine ⟨0, [], ?_, Nat.le_refl 0, fun h => absurd h (by omega),
      fun j hj hlt => absurd hlt (by omega), fun h => absurd h (by omega)⟩
    simp [crawl_loop]
  | succ n ih =>
    intro p cards
    by_cases hp : items p = []
    · refine ⟨1, [], ?_, by omega, fun _ => by omega,
        fun j hj hlt => absurd hlt (by omega), fun _ => by simpa using hp⟩
      simp [crawl_loop, add_data_from_page, get_products_on_page, hp]
    · obtain ⟨k', extra', heq, hk, _, hmid, hlast⟩ :=
        ih (p + 1) (cards ++ (items p).map mkCard)
      refine ⟨k' + 1, (items p).map mkCard ++ extra', ?_, by omega,
        fun _ => by omega, ?_, ?_⟩
      · have hpos : 0 < ((items p).map mkCard).length := by
          simpa [List.length_pos] using hp
        simp only [crawl_loop, add_data_from_page, get_products_on_page,
          if_pos hpos, heq, List.range'_succ, List.append_assoc]
        simp
      · intro j hj hlt
        rcases Nat.eq_or_lt_of_le hj with hj' | hj'
        · simpa [← hj'] using hp
        · exact hmid j (by omega) (by omega)
      · intro hklt
        have h1 := hlast (by omega)
        have h2 : p + 1 + k' - 1 = p + (k' + 1) - 1 := by omega
        rwa [h2] at h1

/-- Claim C3: with any sequence of well-formed page results, both the
category-mode and the search-mode crawler request exactly the pages
`1, 2, ..., k` for some `k ≤ 100`, never request a page past the first
empty one (every page before the last requested is non-empty), stop
either because page `k` was empty or silently at the 100-page cap, and
return normally (no error) in every case. -/
theorem C3_crawl_stops_on_empty_page_or_cap (items : Nat → List RawItem)
    (cd : String × String × String) (kw : String) :
    ∃ (k : Nat) (cards : List ProductCard),
      get_all_products_in_category (fun _ p => ⟨some ⟨some (items p)⟩⟩)
          (some cd) [] = .ok (List.range' 1 k, cards) ∧
      get_all_products_in_search_result (fun _ p => ⟨some ⟨some (items p)⟩⟩)
          kw [] = .ok (List.range' 1 k, cards) ∧
      1 ≤ k ∧ k ≤ 100 ∧
      (∀ j, 1 ≤ j → j < k → items j ≠ []) ∧
      (items k = [] ∨ k = 100) := by
  obtain ⟨k, extra, heq, hk, hpos, hmid, hlast⟩ :=
    crawl_loop_wf_pages items 100 1 []
  refine ⟨k, extra, ?_, ?_, hpos (by omega), hk,
    fun j hj hlt => hmid j hj (by omega), ?_⟩
  · simpa [get_all_products_in_category] using heq
  · simpa [get_all_products_in_search_result] using heq
  · rcases Nat.lt_or_ge k 100 with hlt | hge
    · exact Or.inl (by simpa using hlast hlt)
    · exact Or.inr (by omega)

/-! Claims C5 and C4: the record extractor's partiality and the driver's
handling of a failed category resolution. -/

/-- Claim C5, counterexample.  The claim asserts the extractor never raises
on a response whose raw item list is absent; in the code
`page_data['data']['products']` raises an uncaught `KeyError` when either
key is missing. -/
theorem C5_counterexample_absent_key_raises :
    get_products_on_page ⟨none⟩ = .error .keyError ∧
      get_products_on_page ⟨some ⟨none⟩⟩ = .error .keyError :=
  ⟨rfl, rfl⟩

/-- Claim C5, amended: a response whose raw item list is present and empty
yields the empty record list; a response with the `'data'` or `'products'`
key absent instead raises an uncaught `KeyError`; and the empty extracted
list is exactly the condition on which `add_data_from_page` reports
termination (`True`) to the crawler. -/
theorem C5_empty_page_yields_no_records :
    get_products_on_page ⟨some ⟨some []⟩⟩ = .ok [] ∧
    (∀ items : List RawItem,
      get_products_on_page ⟨some ⟨some items⟩⟩ = .ok (items.map mkCard)) ∧
    (∀ (resp : PageData) (cards : List ProductCard),
      add_data_from_page resp cards = .ok (cards, true) ↔
        get_products_on_page resp = .ok []) := by
  refine ⟨rfl, fun items => rfl, fun resp cards => ?_⟩
  constructor
  · intro h
    simp only [add_data_from_page] at h
    cases hg : get_products_on_page resp with
    | error e => rw [hg] at h; simp at h
    | ok page =>
      rw [hg] at h
      cases page with
      | nil => rfl
      | cons c tl => simp at h
  · intro h
    simp [add_data_from_page, h]

/-- Claim C4: mode `'1'` of `run_parser` when the resolver finds no
category.  The code does print the terminal message, but the crawl is not
skipped: `get_all_products_in_category(None)` is still called and
subscripting `None` raises `TypeError`, so the session crashes instead of
ending cleanly — for every behaviour of the page fetches and sales
lookups, since none of them is ever reached. -/
theorem C4_category_not_found_still_invokes_crawler
    (fetch : String × String × String → Nat → PageData)
    (lookup : Int → LookupResult) :
    run_parser_mode1 sampleCatalogue "Nonexistent" fetch lookup =
      ("Категория не найдена", .error .typeError) := by
  have hnone : extract_category_data sampleCatalogue "Nonexistent" = none := by
    decide
  simp [run_parser_mode1, hnone, get_all_products_in_category]

/-! Claims C7 and C10: the category resolver. -/

/-- When the separator does not occur in `s` (and the fuel covers `s`),
Python's split returns the whole string as its only piece. -/
theorem pySplitGo_no_occurrence (sep : List Char) :
    ∀ (fuel : Nat) (s : List Char), containsSeq sep s = false →
      s.length ≤ fuel → pySplitGo sep fuel s = [s] := by
  intro fuel
  induction fuel with
  | zero =>
    intro s _ hlen
    cases s with
    | nil => rfl
    | cons c rest => simp at hlen
  | succ fuel ih =>
    intro s hocc hlen
    cases s with
    | nil => rfl
    | cons c rest =>
      simp only [containsSeq, Bool.or_eq_false_iff] at hocc
      have hcond : ¬(sep ≠ [] ∧ sep.isPrefixOf (c :: rest) = true) := by
        rintro ⟨-, h2⟩
        rw [hocc.1] at h2
        exact Bool.false_ne_true h2
      simp only [pySplitGo]
      rw [if_neg hcond, ih rest hocc.2 (by simp at hlen; omega)]

/-- Python's split on a string that starts with the (non-occurring-later)
separator: an empty piece, then the remainder. -/
theorem pySplit_strip_head (sep s : List Char) (hsep : sep ≠ [])
    (hocc : containsSeq sep s = false) :
    pySplit sep (sep ++ s) = [[], s] := by
  obtain ⟨c, tl, rfl⟩ : ∃ c tl, sep = c :: tl := by
    cases sep with
    | nil => exact absurd rfl hsep
    | cons c tl => exact ⟨c, tl, rfl⟩
  show pySplitGo (c :: tl) (c :: (tl ++ s)).length (c :: (tl ++ s)) = [[], s]
  have hpre : (c :: tl).isPrefixOf (c :: (tl ++ s)) = true := by
    simp [List.isPrefixOf_iff_prefix]
  have hcond : c :: tl ≠ [] ∧ (c :: tl).isPrefixOf (c :: (tl ++ s)) = true :=
    ⟨List.cons_ne_nil c tl, hpre⟩
  have hdrop : List.drop (tl.length + 1) (c :: (tl ++ s)) = s := by
    simp only [List.drop_succ_cons]
    exact List.drop_left tl s
  simp only [List.length_cons, pySplitGo]
  rw [if_pos hcond, hdrop,
    pySplitGo_no_occurrence (c :: tl) _ s hocc (by simp)]
  

/-- When the marketplace domain does not occur in the input, Python's
`split(...)[-1]` leaves the input unchanged. -/
theorem pySplitLast_no_occurrence (s : String)
    (h : containsSeq wbDomain.data s.data = false) :
    pySplitLast wbDomain s = s := by
  show (⟨(pySplit wbDomain.data s.data).getLastD []⟩ : String) = s
  rw [show pySplit wbDomain.data s.data = [s.data] from
    pySplitGo_no_occurrence wbDomain.data _ s.data h (Nat.le_refl _)]
  rfl

/-- On an input of URL form — the domain followed by a path in which the
domain does not occur again — Python's `split(...)[-1]` is exactly the
path suffix after the domain. -/
theorem pySplitLast_strip_domain (path : String)
    (h : containsSeq wbDomain.data path.data = false) :
    pySplitLast wbDomain (wbDomain ++ path) = path := by
  show (⟨(pySplit wbDomain.data (wbDomain ++ path).data).getLastD []⟩ : String)
    = path
  have hdata : (wbDomain ++ path).data = wbDomain.data ++ path.data := rfl
  rw [hdata, pySplit_strip_head wbDomain.data path.data (by decide) h]
  rfl

/-- `extract_category_data` is the first entry of the catalogue passing
`resolverHit`, projected to `(name, shard, query)`. -/
theorem extract_eq_find (catalogue : List CategoryDescriptor)
    (user_input : String) :
    extract_category_data catalogue user_input =
      (catalogue.find? (resolverHit user_input)).map
        (fun c => (c.name, c.shard, c.query)) := by
  induction catalogue with
  | nil => rfl
  | cons c rest ih =>
    by_cases hc : pySplitLast wbDomain user_input = c.url ∨ user_input = c.name
    · have hhit : resolverHit user_input c = true := by
        simpa [resolverHit] using hc
      rw [extract_category_data.eq_def]
      simp only [if_pos hc, List.find?_cons_of_pos _ hhit]
      rfl
    · have hhit : resolverHit user_input c = false := by
        simpa [resolverHit] using hc
      rw [extract_category_data.eq_def]
      simp only [if_neg hc,
        List.find?_cons_of_neg _ (show ¬resolverHit user_input c = true by
          simp [hhit])]
      exact ih

/-- Claim C7: on every flattened catalogue and user input, the resolver
returns the projection of the first descriptor in sequence order matching
the input (`resolverHit`: the split-suffix of the input equals `url`, or
the input equals `name` verbatim); it returns `none` — a value, not a
raised exception — exactly when no descriptor matches; and for an input of
URL form (domain ++ path, the domain not recurring in the path) the
compared suffix is exactly the path after the domain. -/
theorem C7_resolver_first_match_or_not_found
    (catalogue : List CategoryDescriptor) (user_input : String) :
    extract_category_data catalogue user_input =
      (catalogue.find? (resolverHit user_input)).map
        (fun c => (c.name, c.shard, c.query)) ∧
    (extract_category_data catalogue user_input = none ↔
      ∀ c ∈ catalogue,
        ¬(pySplitLast wbDomain user_input = c.url ∨ user_input = c.name)) ∧
    (∀ path : String, containsSeq wbDomain.data path.data = false →
      extract_category_data catalogue (wbDomain ++ path) =
        (catalogue.find? fun c =>
          path == c.url || (wbDomain ++ path) == c.name).map
          (fun c => (c.name, c.shard, c.query))) := by
  refine ⟨extract_eq_find catalogue user_input, ?_, ?_⟩
  · rw [extract_eq_find]
    simp [List.find?_eq_none, resolverHit]
  · intro path h
    rw [extract_eq_find]
    have hfun : resolverHit (wbDomain ++ path) = fun c =>
        path == c.url || (wbDomain ++ path) == c.name := by
      funext c
      simp only [resolverHit]
      rw [pySplitLast_strip_domain path h]
    rw [hfun]

/-- Witness for claim C7: against the one-entry catalogue, the name
`"Books"` and the URL `"https://www.wildberries.ru/books"` both resolve to
the `Books` category, and `"Nonexistent"` yields `none`. -/
theorem C7_resolver_first_match_or_not_found_witness :
    extract_category_data sampleCatalogue "Books" =
        some ("Books", "books1", "cat=1") ∧
      extract_category_data sampleCatalogue
        "https://www.wildberries.ru/books" =
        some ("Books", "books1", "cat=1") ∧
      extract_category_data sampleCatalogue "Nonexistent" = none := by
  refine ⟨?_, ?_, ?_⟩
  · rw [(C7_resolver_first_match_or_not_found sampleCatalogue "Books").1]
    decide
  · rw [(C7_resolver_first_match_or_not_found sampleCatalogue
      "https://www.wildberries.ru/books").1]
    decide
  · rw [(C7_resolver_first_match_or_not_found sampleCatalogue
      "Nonexistent").1]
    decide

/-- Claim C10: when the user input does not contain the marketplace domain,
`split(domain)[-1]` is the input itself, so the resolver compares the whole
input against each `url` as well as each `name`: the first descriptor whose
`url` or `name` equals the input wins, even though such an input is neither
a full URL nor necessarily a category name. -/
theorem C10_bare_input_compared_to_url (user_input : String)
    (h : containsSeq wbDomain.data user_input.data = false)
    (catalogue : List CategoryDescriptor) :
    extract_category_data catalogue user_input =
      (catalogue.find? fun c =>
        user_input == c.url || user_input == c.name).map
        (fun c => (c.name, c.shard, c.query)) := by
  rw [extract_eq_find]
  have hfun : resolverHit user_input = fun c =>
      user_input == c.url || user_input == c.name := by
    funext c
    simp only [resolverHit]
    rw [pySplitLast_no_occurrence user_input h]
  rw [hfun]

/-- Witness for claim C10: the bare path `"/books"` — not a URL, not a
category name — resolves to the `Books` category through the `url`
comparison. -/
theorem C10_bare_input_compared_to_url_witness :
    containsSeq wbDomain.data "/books".data = false ∧
      extract_category_data sampleCatalogue "/books" =
        some ("Books", "books1", "cat=1") := by
  refine ⟨by decide, ?_⟩
  rw [C10_bare_input_compared_to_url "/books" (by decide) sampleCatalogue]
  decide
